import Mathlib

/-!
Verification development for the tokenator credential-issuance pipeline
(snapcrafters/tokenator). The Go sources are shallowly embedded: pure string
and list manipulation becomes Lean functions, fallible operations return
`Except`, network calls are driven by explicit oracles, and Go runtime panics
are a distinguished error constructor so that "returns an error" and
"crashes" are distinguishable propositions.
-/

namespace Tokenator

/-- GoError distinguishes a Go error value (returned to the caller) from a
runtime panic such as an out-of-range slice index (which crashes the
program). -/
inductive GoError where
  | value (msg : String)
  | indexOutOfRange
deriving DecidableEq

/-- goIndex models Go slice indexing `l[i]` with an `int` index: in-range
indexing yields the element, anything else is a runtime panic. -/
def goIndex {α : Type} (l : List α) (i : Int) : Except GoError α :=
  if h : 0 ≤ i ∧ i.toNat < l.length then .ok (l.get ⟨i.toNat, h.2⟩)
  else .error .indexOutOfRange

/-- slicesIndexFunc models Go `slices.IndexFunc`: the index of the first
element satisfying the predicate, or -1 if there is none. -/
def slicesIndexFunc {α : Type} (l : List α) (p : α → Bool) : Int :=
  match l.findIdx? p with
  | some i => (i : Int)
  | none => -1

/-- goContains models Go `strings.Contains`: substring containment. -/
def goContains (s sub : String) : Bool :=
  decide (sub.data <:+: s.data)

/-- goSplitAux is the worker for `goSplit`, accumulating the current field in
reverse. -/
def goSplitAux (sep : Char) : List Char → List Char → List (List Char)
  | [], acc => [acc.reverse]
  | c :: rest, acc =>
      if c == sep then acc.reverse :: goSplitAux sep rest []
      else goSplitAux sep rest (c :: acc)

/-- goSplit models Go `strings.Split` with a one-character separator: the
list of fields between separators (never empty). -/
def goSplit (s : String) (sep : Char) : List String :=
  (goSplitAux sep s.data []).map String.mk

/-- goToUpper models Go `strings.ToUpper` for the ASCII strings this program
feeds it. -/
def goToUpper (s : String) : String := String.mk (s.data.map Char.toUpper)

/-! Configuration model, from `internal/config/config.go`. -/

/-- Track ties together a store track, a repository branch and a GitHub
environment (`config.Track`). -/
structure Track where
  name : String
  branch : String
  environment : String
deriving DecidableEq

/-- Repo is one managed repository with its configured tracks
(`config.Repo`). -/
structure Repo where
  name : String
  tracks : List Track
deriving DecidableEq

/-- defaultTrack is the track substituted by `SetDefaults` when a repository
declares none. -/
def defaultTrack : Track := ⟨"latest", "candidate", "Candidate Branch"⟩

/-- Repo.setDefaults embeds `config.Repo.SetDefaults`: it unconditionally
replaces the track list with the single default track. -/
def Repo.setDefaults (r : Repo) : Repo :=
  { r with tracks := [defaultTrack] }

/-- Config is the top-level configuration (`config.Config`). -/
structure Config where
  org : String
  repos : List Repo

/-- filterRepos embeds `Manager.filterRepos`: with a non-empty filter, keep
(in order) exactly the configured repos whose name appears in the filter. -/
def filterRepos (repos : List Repo) (filter : List String) : List Repo :=
  if filter.length > 0 then repos.filter (fun r => filter.contains r.name)
  else repos

/-! Personal Access Token model, from `internal/gh/pat_client.go` and the
cleanup loop of `Manager.setBotCommitSecret` in
`internal/tokenator/manager.go`. -/

/-- PAT is a GitHub personal access token as scraped from the settings UI
(`gh.PAT`); only the fields the cleanup logic reads are kept. -/
structure PAT where
  id : String
  name : String
deriving DecidableEq

/-- patTokenName is the name `Manager.setBotCommitSecret` gives the token it
creates: `token8r-<run id>-<repo>-<track>`. -/
def patTokenName (runId snap trackName : String) : String :=
  "token8r-" ++ runId ++ "-" ++ snap ++ "-" ++ trackName

/-- cleanupDeleted embeds the cleanup loop at the end of
`Manager.setBotCommitSecret`: of the previously listed tokens, exactly those
whose name contains `<repo>-<track>` and does not contain the current run
identifier are deleted. -/
def cleanupDeleted (pats : List PAT) (snap trackName runId : String) : List PAT :=
  pats.filter (fun p =>
    goContains p.name (snap ++ "-" ++ trackName) && !goContains p.name runId)

/-- createRepoIDPairs embeds the repository-id resolution loop of
`PATClient.Create`: each `"owner/repo"` string is split on `/` and the
pieces at index 0 and 1 are read with Go slice indexing (which panics when
the element contains no separator). -/
def createRepoIDPairs : List String → Except GoError (List (String × String))
  | [] => .ok []
  | repo :: rest => do
      let r := goSplit repo '/'
      let owner ← goIndex r 0
      let name ← goIndex r 1
      let tail ← createRepoIDPairs rest
      .ok ((owner, name) :: tail)

/-! The organization client, from the org-client part of the sources
(`findPATRequest` / `ApprovePATRequest`). -/

/-- PATRequest is a pending fine-grained-token approval request together
with the full names of the repositories it is scoped to (the result of
`listPATRequestRepositories`). -/
structure PATRequest where
  id : Int
  repos : List String
deriving DecidableEq

/-- patReqMatches embeds the per-request test inside `findPATRequest`: the
repository list has exactly two entries, one being `org/repo` and one being
`org/ci-screenshots`. -/
def patReqMatches (org repo : String) (req : PATRequest) : Bool :=
  req.repos.length == 2
    && req.repos.any (fun r => r == org ++ "/" ++ repo)
    && req.repos.any (fun r => r == org ++ "/ci-screenshots")

/-- findPATRequest embeds `OrgClient.findPATRequest`: scan the pending
requests in listing order and return the id of the first one that matches;
error if none does. -/
def findPATRequest (org repo : String) (reqs : List PATRequest) : Except String Int :=
  match reqs.find? (patReqMatches org repo) with
  | some r => .ok r.id
  | none => .error ("could not find PAT request for " ++ org ++ "/" ++ repo)

/-- approvePATRequest embeds `OrgClient.ApprovePATRequest` on the selection
level: look up the matching pending request and approve it (the approved
request's id is returned; the review call itself is not modelled as
fallible, which only strengthens the refutation below). -/
def approvePATRequest (org repo : String) (reqs : List PATRequest) : Except String Int :=
  match findPATRequest org repo reqs with
  | .error _ => .error ("could not find PAT request for " ++ org ++ "/" ++ repo)
  | .ok i => .ok i

/-! Top-level command, from `main.go`. -/

/-- rootCmdRunE embeds the `RunE` closure of `rootCmd`: config and
credential parsing failures are returned (so cobra's `Execute` fails), but a
`Process` failure is only logged — `RunE` then returns nil. The first
component collects the messages passed to `slog.Error` inside `RunE`. -/
def rootCmdRunE (cfg creds processResult : Except String Unit) :
    List String × Except String Unit :=
  match cfg with
  | .error e => ([], .error ("failed to parse config: " ++ e))
  | .ok _ =>
    match creds with
    | .error e => ([], .error ("failed to parse credentials: " ++ e))
    | .ok _ =>
      match processResult with
      | .error e => ([e], .ok ())
      | .ok _ => ([], .ok ())

/-- mainRun embeds `main`: run `rootCmd.Execute` (here: `rootCmdRunE`); if it
returns an error, log it and exit 1, otherwise the process ends with exit
status 0. Result: (all logged error messages, exit status). -/
def mainRun (cfg creds processResult : Except String Unit) : List String × Nat :=
  let (logs, res) := rootCmdRunE cfg creds processResult
  match res with
  | .error e => (logs ++ [e], 1)
  | .ok _ => (logs, 0)

/-! JSON values. Request and response bodies of the store protocol are
modelled as JSON trees; `Json.str`/`Json.obj` suffice for the credential
envelope, the other constructors appear in request bodies. -/

/-- Json is a JSON value tree. -/
inductive Json where
  | str (s : String)
  | num (n : Int)
  | arr (elems : List Json)
  | obj (fields : List (String × Json))

/-- jsonGetField models a gjson top-level field lookup on a response: the
value of the first field with the given key, if the value is an object. -/
def jsonGetField (j : Json) (key : String) : Option Json :=
  match j with
  | .obj fields => (fields.find? (fun f => f.1 == key)).map (fun f => f.2)
  | _ => none

/-! Base64, modelling Go `encoding/base64` (`StdEncoding` with padding for
the outer credential envelope, `RawURLEncoding` without padding for the
macaroon fields). Bytes are `Nat`s below 256. -/

/-- sextets turns a byte sequence into the 6-bit groups of its base64
encoding. -/
def sextets : List Nat → List Nat
  | [] => []
  | [a] => [a / 4, a % 4 * 16]
  | [a, b] => [a / 4, a % 4 * 16 + b / 16, b % 16 * 4]
  | a :: b :: c :: rest =>
      (a / 4) :: (a % 4 * 16 + b / 16) :: (b % 16 * 4 + c / 64) :: (c % 64)
        :: sextets rest

/-- unSextets reassembles bytes from 6-bit groups; `none` on a trailing
group of length 1, which no base64 encoding produces. -/
def unSextets : List Nat → Option (List Nat)
  | [] => some []
  | [_] => none
  | [x, y] => some [x * 4 + y / 16]
  | [x, y, z] => some [x * 4 + y / 16, y % 16 * 16 + z / 4]
  | x :: y :: z :: w :: rest =>
      match unSextets rest with
      | none => none
      | some r =>
          some ((x * 4 + y / 16) :: (y % 16 * 16 + z / 4) :: (z % 4 * 64 + w) :: r)

/-- b64StdAlphabet is the standard base64 alphabet. -/
def b64StdAlphabet : List Char :=
  "ABCDEFGHIJKLMNOPQRSTUVWXYZabcdefghijklmnopqrstuvwxyz0123456789+/".data

/-- b64UrlAlphabet is the URL-safe base64 alphabet. -/
def b64UrlAlphabet : List Char :=
  "ABCDEFGHIJKLMNOPQRSTUVWXYZabcdefghijklmnopqrstuvwxyz0123456789-_".data

/-- b64EncodeWith maps the 6-bit groups through an alphabet. -/
def b64EncodeWith (alpha : List Char) (bs : List Nat) : List Char :=
  (sextets bs).map (fun i => alpha.getD i '?')

/-- b64Padding is the '=' padding StdEncoding appends for a byte count. -/
def b64Padding (n : Nat) : List Char :=
  if n % 3 == 1 then ['=', '='] else if n % 3 == 2 then ['='] else []

/-- b64StdEncode models `base64.StdEncoding.EncodeToString`. -/
def b64StdEncode (bs : List Nat) : String :=
  String.mk (b64EncodeWith b64StdAlphabet bs ++ b64Padding bs.length)

/-- b64UrlEncode models `base64.RawURLEncoding.EncodeToString` (no
padding). -/
def b64UrlEncode (bs : List Nat) : String :=
  String.mk (b64EncodeWith b64UrlAlphabet bs)

/-- charsToSextets looks every character up in the alphabet, failing on a
foreign character. -/
def charsToSextets (alpha : List Char) : List Char → Option (List Nat)
  | [] => some []
  | c :: rest =>
      match alpha.findIdx? (fun a => a == c) with
      | none => none
      | some i =>
        match charsToSextets alpha rest with
        | none => none
        | some is => some (i :: is)

/-- b64DecodeWith decodes against an alphabet, ignoring '=' padding. -/
def b64DecodeWith (alpha : List Char) (s : String) : Option (List Nat) :=
  match charsToSextets alpha (s.data.filter (fun c => c != '=')) with
  | none => none
  | some sx => unSextets sx

/-- b64StdDecode models `base64.StdEncoding.DecodeString`. -/
def b64StdDecode (s : String) : Option (List Nat) := b64DecodeWith b64StdAlphabet s

/-- b64UrlDecode models `base64.RawURLEncoding.DecodeString`. -/
def b64UrlDecode (s : String) : Option (List Nat) := b64DecodeWith b64UrlAlphabet s

/-- strToBytes models converting a Go string to its bytes (`[]byte(s)`); the
strings fed to it here are ASCII, for which this is the identity on code
points. -/
def strToBytes (s : String) : List Nat := s.data.map Char.toNat

/-! Macaroons. The program manipulates macaroons opaquely through the
external library `gopkg.in/macaroon.v1`; the library is modelled by a
structure with the fields the program reads (`Caveats()[i].Location`,
`Caveats()[i].Id`) and a binary serialization with a total parser, standing
in for the library's `MarshalBinary`/`UnmarshalBinary` pair. -/

/-- Caveat is a macaroon caveat as exposed by the library. -/
structure Caveat where
  id : String
  verificationId : String
  location : String
deriving DecidableEq

/-- Macaroon is a capability token: location, identifier, caveats and
signature bytes. -/
structure Macaroon where
  location : String
  id : String
  caveats : List Caveat
  sig : List Nat
deriving DecidableEq

/-- encStrLP is a length-prefixed string encoding used by the serialization
model. -/
def encStrLP (s : String) : List Nat := s.data.length :: s.data.map Char.toNat

/-- encBytesLP is a length-prefixed byte-sequence encoding. -/
def encBytesLP (b : List Nat) : List Nat := b.length :: b

/-- Caveat.marshal serializes one caveat. -/
def Caveat.marshal (c : Caveat) : List Nat :=
  encStrLP c.id ++ encStrLP c.verificationId ++ encStrLP c.location

/-- Macaroon.marshalBinary models the library's `MarshalBinary`. -/
def Macaroon.marshalBinary (m : Macaroon) : List Nat :=
  encStrLP m.location ++ encStrLP m.id
    ++ (m.caveats.length :: (m.caveats.map Caveat.marshal).flatten)
    ++ encBytesLP m.sig

/-- decStrLP parses one length-prefixed string, returning the rest of the
input. -/
def decStrLP (l : List Nat) : Option (String × List Nat) :=
  match l with
  | [] => none
  | n :: rest =>
      if n ≤ rest.length then
        some (String.mk ((rest.take n).map Char.ofNat), rest.drop n)
      else none

/-- decBytesLP parses one length-prefixed byte sequence. -/
def decBytesLP (l : List Nat) : Option (List Nat × List Nat) :=
  match l with
  | [] => none
  | n :: rest =>
      if n ≤ rest.length then some (rest.take n, rest.drop n) else none

/-- decCaveat parses one caveat. -/
def decCaveat (l : List Nat) : Option (Caveat × List Nat) :=
  match decStrLP l with
  | none => none
  | some (i, l) =>
    match decStrLP l with
    | none => none
    | some (v, l) =>
      match decStrLP l with
      | none => none
      | some (loc, l) => some (⟨i, v, loc⟩, l)

/-- decCaveats parses a counted list of caveats. -/
def decCaveats : Nat → List Nat → Option (List Caveat × List Nat)
  | 0, l => some ([], l)
  | n + 1, l =>
    match decCaveat l with
    | none => none
    | some (c, l) =>
      match decCaveats n l with
      | none => none
      | some (cs, l) => some (c :: cs, l)

/-- Macaroon.unmarshalBinary models the library's `UnmarshalBinary`: it
succeeds exactly on well-formed serializations and inverts
`marshalBinary`. -/
def Macaroon.unmarshalBinary (l : List Nat) : Option Macaroon :=
  match decStrLP l with
  | none => none
  | some (loc, l) =>
    match decStrLP l with
    | none => none
    | some (ident, l) =>
      match l with
      | [] => none
      | n :: l =>
        match decCaveats n l with
        | none => none
        | some (cs, l) =>
          match decBytesLP l with
          | none => none
          | some (sig, l) =>
            if l.isEmpty then some ⟨loc, ident, cs, sig⟩ else none

/-! The store authentication client, from the store client source file
(`GenerateStoreToken`, `login`, `getRootMacaroon`, `getDischargedMacaroon`,
`deserializeMacaroon`) and `internal/store/tokens.go` /
`internal/store/packages.go`. Network traffic is driven by an oracle mapping
each POSTed (url, body) to a transport error or a JSON response; every call
is logged so that "no HTTP request was issued" is expressible. -/

/-- LoginCredentials is a login/password pair (`config.LoginCredentials`). -/
structure LoginCredentials where
  login : String
  password : String

/-- StoreCall is one HTTP POST made by the store client. -/
structure StoreCall where
  url : String
  body : Json

/-- StoreOracle decides the outcome of each POST: a transport error or a
JSON response body. -/
def StoreOracle : Type := StoreCall → Except String Json

/-- snapStoreBaseURL is `SNAP_STORE_ENDPOINTS.BaseURL`. -/
def snapStoreBaseURL : String := "https://dashboard.snapcraft.io"

/-- storeAuthURL is `UBUNTU_ONE_SNAP_STORE_AUTH_ENDPOINTS.AuthURL`. -/
def storeAuthURL : String := "https://login.ubuntu.com"

/-- storeTokensPath is the `Tokens` endpoint path. -/
def storeTokensPath : String := "/dev/api/acl/"

/-- storeTokensExchangePath is the `TokensExchange` endpoint path. -/
def storeTokensExchangePath : String := "/api/v2/tokens/discharge"

/-- urlHost models `url.Parse(u).Host` for scheme://host URLs. -/
def urlHost (u : String) : String := (goSplit u '/').getD 2 ""

/-- channelPermissions embeds the `channelPermissions` table: the ACLs
granted per channel; absent channels are invalid. -/
def channelPermissions (channel : String) : Option (List String) :=
  if channel == "candidate" then
    some ["package_access", "package_push", "package_update", "package_release"]
  else if channel == "stable" then
    some ["package_access", "package_release"]
  else none

/-- tokenRequestJson is the JSON body of the root-macaroon request
(`tokenRequest` with fields in Go struct order, packages built by
`NewSnapPackage`). -/
def tokenRequestJson (permissions : List String) (description : String)
    (ttl : Int) (packages : List String) (channels : List String) : Json :=
  .obj [("permissions", .arr (permissions.map .str)),
        ("description", .str description),
        ("ttl", .num ttl),
        ("packages", .arr (packages.map (fun p =>
          .obj [("name", .str p), ("type", .str "snap")]))),
        ("channels", .arr (channels.map .str))]

/-- deserializeMacaroon embeds `StoreClient.deserializeMacaroon`: extract
the named field from the response, base64-url-decode it, and unmarshal the
bytes into a macaroon. -/
def deserializeMacaroon (resp : Json) (field : String) : Except String Macaroon :=
  match jsonGetField resp field with
  | none => .error "no macaroon found in response json"
  | some (.str s) =>
    match b64UrlDecode s with
    | none => .error "failed to decode unmarshalled macaroon"
    | some bytes =>
      match Macaroon.unmarshalBinary bytes with
      | none => .error "failed to deserialize macaroon"
      | some mac => .ok mac
  | some _ => .error "failed to decode unmarshalled macaroon"

/-- wrapGoError prefixes a context message onto an error value, as
`fmt.Errorf("...: %w", err)` does; a runtime panic is not wrapped — it
propagates as a crash. -/
def wrapGoError (pre : String) : GoError → GoError
  | .value msg => .value (pre ++ msg)
  | e => e

/-- getRootMacaroon embeds `StoreClient.getRootMacaroon`: POST the token
request to the store's acl endpoint and deserialize the "macaroon" field. -/
def getRootMacaroon (oracle : StoreOracle) (log : List StoreCall) (body : Json) :
    List StoreCall × Except GoError Macaroon :=
  let call : StoreCall := ⟨snapStoreBaseURL ++ storeTokensPath, body⟩
  match oracle call with
  | .error e =>
      (log ++ [call], .error (.value ("failed to request token exchange endpoint: " ++ e)))
  | .ok resp =>
      (log ++ [call],
       match deserializeMacaroon resp "macaroon" with
       | .error e => .error (.value ("failed to deserialize macaroon: " ++ e))
       | .ok m => .ok m)

/-- getDischargedMacaroon embeds `StoreClient.getDischargedMacaroon`: find
the caveat whose location is the auth host with `slices.IndexFunc`, index
the caveat slice with the result *unchecked* (a runtime panic when no caveat
matches), then POST the discharge request and deserialize the
"discharge_macaroon" field. -/
def getDischargedMacaroon (oracle : StoreOracle) (log : List StoreCall)
    (root : Macaroon) (creds : LoginCredentials) :
    List StoreCall × Except GoError Macaroon :=
  let host := urlHost storeAuthURL
  let idx := slicesIndexFunc root.caveats (fun c => c.location == host)
  match goIndex root.caveats idx with
  | .error e => (log, .error e)
  | .ok caveat =>
    let body : Json := .obj [("email", .str creds.login),
                             ("password", .str creds.password),
                             ("caveat_id", .str caveat.id)]
    let call : StoreCall := ⟨storeAuthURL ++ storeTokensExchangePath, body⟩
    match oracle call with
    | .error e =>
        (log ++ [call], .error (.value ("failed to request token exchange endpoint: " ++ e)))
    | .ok resp =>
        (log ++ [call],
         match deserializeMacaroon resp "discharge_macaroon" with
         | .error e => .error (.value ("failed to deserialize macaroon: " ++ e))
         | .ok m => .ok m)

/-- ubuntuOneTokenJSON is the exact string `json.Marshal` produces for the
`UbuntuOneToken` struct: field "t" is the fixed token type and field "v" is
the envelope with the two base64-url-serialized macaroons. -/
def ubuntuOneTokenJSON (root discharged : String) : String :=
  "\x7b\"t\":\"u1-macaroon\",\"v\":\x7b\"r\":\"" ++ root
    ++ "\",\"d\":\"" ++ discharged ++ "\"\x7d\x7d"

/-- newUbuntuOneTokenJSON composes `NewUbuntuOneToken` (marshal both
macaroons to binary, base64-url-encode them) with `json.Marshal`. -/
def newUbuntuOneTokenJSON (root discharge : Macaroon) : String :=
  ubuntuOneTokenJSON (b64UrlEncode root.marshalBinary)
    (b64UrlEncode discharge.marshalBinary)

/-- loginCredential is the final composite bearer credential produced by
`login`: the JSON envelope, base64-std-encoded. -/
def loginCredential (root discharge : Macaroon) : String :=
  b64StdEncode (strToBytes (newUbuntuOneTokenJSON root discharge))

/-- login embeds `StoreClient.login`: obtain the root macaroon, discharge
it, build the Ubuntu One token and encode it. -/
def login (oracle : StoreOracle) (creds : LoginCredentials) (body : Json) :
    List StoreCall × Except GoError String :=
  let (log1, rootRes) := getRootMacaroon oracle [] body
  match rootRes with
  | .error e => (log1, .error (wrapGoError "failed to get root macaroon: " e))
  | .ok root =>
    let (log2, dischRes) := getDischargedMacaroon oracle log1 root creds
    match dischRes with
    | .error e => (log2, .error (wrapGoError "failed to get discharged macaroon: " e))
    | .ok discharge => (log2, .ok (loginCredential root discharge))

/-- generateStoreToken embeds `StoreClient.GenerateStoreToken`: validate the
channel against the permission table (failing with no HTTP traffic on an
unknown channel), build the token request, and run `login`. -/
def generateStoreToken (oracle : StoreOracle) (creds : LoginCredentials)
    (snap track channel : String) : List StoreCall × Except GoError String :=
  match channelPermissions channel with
  | none => ([], .error (.value "invalid channel specified"))
  | some permissions =>
    let body := tokenRequestJson permissions
      ("tokenator-" ++ snap ++ "-" ++ track) 31536000 [snap]
      [track ++ "/" ++ channel]
    let (log, res) := login oracle creds body
    (log,
     match res with
     | .error e => .error (wrapGoError "failed to generate store token: " e)
     | .ok tok => .ok tok)

/-! Decoding the composite credential. The spec's claim speaks about
base64-decoding and then JSON-decoding the produced credential; a JSON
parser (covering the string/object shapes the envelope uses) makes that
decoding an executable function. -/

/-- parseStrLit parses a JSON string literal; no escape sequences occur in
the credential envelope (base64 alphabets contain neither quotes nor
backslashes). -/
def parseStrLit : List Char → Option (String × List Char)
  | '"' :: rest =>
      match rest.dropWhile (fun c => c != '"') with
      | '"' :: rest2 => some (String.mk (rest.takeWhile (fun c => c != '"')), rest2)
      | _ => none
  | _ => none

mutual

/-- parseJsonVal parses one JSON value (string or object); the fuel bounds
nesting depth. -/
def parseJsonVal : Nat → List Char → Option (Json × List Char)
  | 0, _ => none
  | _ + 1, '"' :: rest =>
      match parseStrLit ('"' :: rest) with
      | some (s, r) => some (.str s, r)
      | none => none
  | fuel + 1, '\x7b' :: rest =>
      match rest with
      | '\x7d' :: rest2 => some (.obj [], rest2)
      | _ =>
        match parseFields fuel rest with
        | some (fs, r) => some (.obj fs, r)
        | none => none
  | _ + 1, _ => none

/-- parseFields parses a non-empty object field list, consuming the closing
brace. -/
def parseFields : Nat → List Char → Option (List (String × Json) × List Char)
  | 0, _ => none
  | fuel + 1, l =>
      match parseStrLit l with
      | none => none
      | some (key, rest) =>
        match rest with
        | ':' :: rest2 =>
          match parseJsonVal fuel rest2 with
          | none => none
          | some (v, rest3) =>
            match rest3 with
            | ',' :: rest4 =>
              match parseFields fuel rest4 with
              | none => none
              | some (fs, rest5) => some ((key, v) :: fs, rest5)
            | '\x7d' :: rest4 => some ([(key, v)], rest4)
            | _ => none
        | _ => none

end

/-- jsonDecode parses a whole string as one JSON value. -/
def jsonDecode (s : String) : Option Json :=
  match parseJsonVal (s.length + 1) s.data with
  | some (j, []) => some j
  | _ => none

/-- decodeMacaroonField decodes one envelope field the way a consumer (and
the store) would: base64-url-decode, then unmarshal the binary macaroon. -/
def decodeMacaroonField (s : String) : Option Macaroon :=
  match b64UrlDecode s with
  | none => none
  | some bytes => Macaroon.unmarshalBinary bytes

/-- decodeCredential base64-decodes the composite credential and JSON-decodes
the result, as the claim prescribes. -/
def decodeCredential (s : String) : Option Json :=
  match b64StdDecode s with
  | none => none
  | some bytes => jsonDecode (String.mk (bytes.map Char.ofNat))

/-- Json.isStr tests whether a JSON value is a string (only a string can be
a base64 serialization of a binary token). -/
def Json.isStr : Json → Bool
  | .str _ => true
  | _ => false

/-- tmplChars is the character-level shape of the marshalled `UbuntuOneToken`
envelope, with the two base64 payloads abstracted. -/
def tmplChars (A B : List Char) : List Char :=
  '\x7b' :: '"' :: 't' :: '"' :: ':' :: '"' :: 'u' :: '1' :: '-' :: 'm' :: 'a'
    :: 'c' :: 'a' :: 'r' :: 'o' :: 'o' :: 'n' :: '"' :: ',' :: '"' :: 'v' :: '"'
    :: ':' :: '\x7b' :: '"' :: 'r' :: '"' :: ':' :: '"'
    :: (A ++ '"' :: ',' :: '"' :: 'd' :: '"' :: ':' :: '"'
    :: (B ++ ['"', '\x7d', '\x7d']))

/-! The repository secret client, from `internal/gh/pat_client.go`'s sibling
repo client (`SetEnvSecret`, `ensureEnvironment`, `createEnvironment`,
`encryptSecret`). REST traffic is recorded as a call trace; response
outcomes come from an oracle record. The sealed-box encryption itself draws
fresh randomness and is not modelled beyond the key fetch/decode step. -/

/-- GhCall is one REST call made by the repo client. -/
inductive GhCall where
  | getRepo (org repo : String)
  | getEnvironment (org repo environment : String)
  | createUpdateEnvironment (org repo environment : String)
      (canAdminsBypass customBranchPolicies protectedBranches preventSelfReview : Bool)
  | createDeploymentBranchPolicy (org repo environment branch : String)
  | getEnvPublicKey (repoId : Int) (environment : String)
  | createOrUpdateEnvSecret (repoId : Int) (environment secretName : String)
deriving DecidableEq

/-- GhOracle fixes the outcome of each REST call `SetEnvSecret` makes. -/
structure GhOracle where
  repoId : Except String Int
  envStatus : Nat
  envErr : Option String
  createEnvErr : Option String
  branchPolicyErr : Option String
  publicKey : Except String (String × String)
  putSecretErr : Option String

/-- createEnvironment embeds `RepoClient.createEnvironment`: one
environment-creation call with admins-bypass on, custom branch policies on,
protected-branches off and self-review prevention on, followed by one
deployment-branch-policy call naming exactly the track's branch. -/
def createEnvironment (o : GhOracle) (org repo : String) (track : Track) :
    List GhCall × Except String Unit :=
  let c1 := GhCall.createUpdateEnvironment org repo track.environment true true false true
  match o.createEnvErr with
  | some e => ([c1], .error ("failed to create branch policy: " ++ e))
  | none =>
    let c2 := GhCall.createDeploymentBranchPolicy org repo track.environment track.branch
    match o.branchPolicyErr with
    | some e => ([c1, c2], .error ("failed to create branch policy for environment: " ++ e))
    | none => ([c1, c2], .ok ())

/-- ensureEnvironment embeds `RepoClient.ensureEnvironment`: fetch the
environment; on a 404 status create it, otherwise propagate a fetch
error. -/
def ensureEnvironment (o : GhOracle) (org repo : String) (track : Track) :
    List GhCall × Except String Unit :=
  let g := GhCall.getEnvironment org repo track.environment
  if o.envStatus == 404 then
    let (cs, r) := createEnvironment o org repo track
    (g :: cs,
     match r with
     | .error e => .error ("failed to create environment: " ++ e)
     | .ok _ => .ok ())
  else
    match o.envErr with
    | some e => ([g], .error ("failed to get environment: " ++ e))
    | none => ([g], .ok ())

/-- EncryptedSecret carries the fields of the upload the claims speak
about. -/
structure EncryptedSecret where
  name : String
  keyId : String
deriving DecidableEq

/-- encryptSecret embeds `RepoClient.encryptSecret`: fetch the environment
public key, base64-decode it, and seal the value (the ciphertext itself is
random and not modelled). -/
def encryptSecret (o : GhOracle) (repoId : Int) (environment secretName : String) :
    List GhCall × Except String EncryptedSecret :=
  let c := GhCall.getEnvPublicKey repoId environment
  match o.publicKey with
  | .error e => ([c], .error ("failed to get environment public key: " ++ e))
  | .ok (keyId, key) =>
    match b64StdDecode key with
    | none => ([c], .error "failed to decode key")
    | some _ => ([c], .ok ⟨secretName, keyId⟩)

/-- setEnvSecret embeds `RepoClient.SetEnvSecret`: resolve the repository,
ensure the environment exists, encrypt, and upload (create-or-update). -/
def setEnvSecret (o : GhOracle) (org repo : String) (track : Track)
    (secretName : String) : List GhCall × Except String Unit :=
  let c0 := GhCall.getRepo org repo
  match o.repoId with
  | .error e => ([c0], .error ("failed to get repository: " ++ e))
  | .ok rid =>
    let (cs1, r1) := ensureEnvironment o org repo track
    match r1 with
    | .error e => (c0 :: cs1, .error ("failed to get environment: " ++ e))
    | .ok _ =>
      let (cs2, r2) := encryptSecret o rid track.environment secretName
      match r2 with
      | .error e => (c0 :: cs1 ++ cs2, .error ("failed to encrypt secret: " ++ e))
      | .ok secret =>
        let c3 := GhCall.createOrUpdateEnvSecret rid track.environment secret.name
        (c0 :: cs1 ++ cs2 ++ [c3],
         match o.putSecretErr with
         | some e => .error ("failed to set secret in environment: " ++ e)
         | none => .ok ())

/-- isCreateEnvCall recognizes an environment-creation call in a trace. -/
def isCreateEnvCall : GhCall → Bool
  | .createUpdateEnvironment _ _ _ _ _ _ _ => true
  | _ => false

/-! The issuance orchestrator, from `internal/tokenator/manager.go`.
`Process` is modelled on its success path: every externally visible
operation is recorded as a step, in program order, so that the ordering and
content claims are expressible. -/

/-- SecretVal describes which value a secret write carries. -/
inductive SecretVal where
  | storeToken (snap trackName channel : String)
  | launchpadStatic
  | botCommitToken
deriving DecidableEq

/-- Step is one externally visible operation of a `Process` run. -/
inductive Step where
  | generateStoreToken (snap trackName channel : String) (permissions : List String)
  | setEnvSecret (repo environment secretName : String) (value : SecretVal)
  | createPAT (name : String) (repos : List String) (owner : String)
  | approvePAT (repo : String)
  | deletePAT (name : String)
deriving DecidableEq

/-- setStoreSecretSteps embeds `Manager.setStoreSecret`: generate the store
token for the channel (with the channel's permission table entry), then set
`SNAP_STORE_<CHANNEL>` in the track's environment. -/
def setStoreSecretSteps (snap : String) (track : Track) (channel : String) :
    List Step :=
  [.generateStoreToken snap track.name channel ((channelPermissions channel).getD []),
   .setEnvSecret snap track.environment ("SNAP_STORE_" ++ goToUpper channel)
     (.storeToken snap track.name channel)]

/-- setLaunchpadSecretSteps embeds `Manager.setLaunchpadSecret`: a single
write of the configured static value. -/
def setLaunchpadSecretSteps (snap : String) (track : Track) : List Step :=
  [.setEnvSecret snap track.environment "LP_BUILD_SECRET" .launchpadStatic]

/-- setBotCommitSecretSteps embeds `Manager.setBotCommitSecret`: create the
PAT (scoped to the repo and the shared screenshots repo), approve its
pending request, install it as `SNAPCRAFTERS_BOT_COMMIT`, then delete the
superseded tokens. -/
def setBotCommitSecretSteps (org snap : String) (track : Track) (runId : String)
    (pats : List PAT) : List Step :=
  [.createPAT (patTokenName runId snap track.name)
      [org ++ "/" ++ snap, "snapcrafters/ci-screenshots"] org,
   .approvePAT snap,
   .setEnvSecret snap track.environment "SNAPCRAFTERS_BOT_COMMIT" .botCommitToken]
  ++ (cleanupDeleted pats snap track.name runId).map (fun p => .deletePAT p.name)

/-- processTrackSteps is the per-(repository, track) body of `Process`:
candidate store secret, stable store secret, Launchpad secret, bot-commit
secret, in that order. -/
def processTrackSteps (org snap : String) (track : Track) (runId : String)
    (pats : List PAT) : List Step :=
  setStoreSecretSteps snap track "candidate"
    ++ setStoreSecretSteps snap track "stable"
    ++ setLaunchpadSecretSteps snap track
    ++ setBotCommitSecretSteps org snap track runId pats

/-- processRepoSteps embeds the per-repository part of `Process`, including
the default-track substitution for a repo configured with no tracks. -/
def processRepoSteps (org : String) (repo : Repo) (runId : String)
    (pats : List PAT) : List Step :=
  let r := if repo.tracks.isEmpty then repo.setDefaults else repo
  (r.tracks.map (fun t => processTrackSteps org r.name t runId pats)).flatten

/-- processSteps embeds `Manager.Process` on its success path: list the
prior tokens (given here as `pats`), filter the configured repos, and run
each repository's tracks in order. -/
def processSteps (cfg : Config) (runId : String) (pats : List PAT)
    (filter : List String) : List Step :=
  ((filterRepos cfg.repos filter).map
    (fun r => processRepoSteps cfg.org r runId pats)).flatten

/-! Concrete fixtures used by counterexamples and witnesses. -/

/-- stalePAT is a token created by an earlier run ("aaaa") for the pair
(xapp, track1). -/
def stalePAT : PAT := ⟨"42", patTokenName "aaaa" "xapp" "track1"⟩

/-- pendingReqA is a pending approval request scoped to
snapcrafters/foo and snapcrafters/ci-screenshots. -/
def pendingReqA : PATRequest := ⟨1, ["snapcrafters/foo", "snapcrafters/ci-screenshots"]⟩

/-- pendingReqB is a second pending approval request scoped to the same two
repositories. -/
def pendingReqB : PATRequest := ⟨2, ["snapcrafters/foo", "snapcrafters/ci-screenshots"]⟩

/-- nullStoreOracle is a store oracle on which every request fails at the
transport; used where a theorem does not depend on responses. -/
def nullStoreOracle : StoreOracle := fun _ => .error "connection refused"

/-- rootNoMatch is a root macaroon none of whose caveats is located at the
authentication authority's host. -/
def rootNoMatch : Macaroon :=
  ⟨"dashboard.snapcraft.io", "root-id", [⟨"cid", "", "example.com"⟩], [1, 2]⟩

/-- notFoundOracle answers the environment fetch with a 404 and lets every
other call succeed. -/
def notFoundOracle : GhOracle :=
  ⟨.ok 7, 404, none, none, none, .ok ("key-id", "AAAA"), none⟩

/-- rootC is a concrete root macaroon whose single caveat is located at the
authentication authority. -/
def rootC : Macaroon :=
  ⟨"dashboard.snapcraft.io", "root-id", [⟨"cid", "", "login.ubuntu.com"⟩], [1, 2]⟩

/-- dischargeC is a concrete discharge macaroon. -/
def dischargeC : Macaroon := ⟨"login.ubuntu.com", "discharge-id", [], [3]⟩

/-- goodStoreOracle answers the acl request with rootC and the discharge
request with dischargeC, each serialized the way the store serves
macaroons. -/
def goodStoreOracle : StoreOracle := fun call =>
  if call.url == snapStoreBaseURL ++ storeTokensPath then
    .ok (.obj [("macaroon", .str (b64UrlEncode rootC.marshalBinary))])
  else
    .ok (.obj [("discharge_macaroon", .str (b64UrlEncode dischargeC.marshalBinary))])

/-! Theorems. -/

/-- Helper: the 6-bit groups of a byte sequence are below 64. -/
theorem sextets_lt_64 (bs : List Nat) (h : ∀ b ∈ bs, b < 256) :
    ∀ x ∈ sextets bs, x < 64 := by
  induction bs using sextets.induct with
  | case1 => simp [sextets]
  | case2 a =>
    have ha := h a (by simp)
    intro x hx
    simp [sextets] at hx
    rcases hx with h1 | h1 <;> omega
  | case3 a b =>
    have ha := h a (by simp)
    have hb := h b (by simp)
    intro x hx
    simp [sextets] at hx
    rcases hx with h1 | h1 | h1 <;> omega
  | case4 a b c rest ih =>
    have ha := h a (by simp)
    have hb := h b (by simp)
    have hc := h c (by simp)
    have hrest : ∀ x ∈ rest, x < 256 := fun x hx => h x (by simp [hx])
    intro x hx
    simp [sextets] at hx
    rcases hx with h1 | h1 | h1 | h1 | h1
    · omega
    · omega
    · omega
    · omega
    · exact ih hrest x h1

/-- Helper: reassembling 6-bit groups inverts `sextets` on byte
sequences. -/
theorem sextets_roundtrip (l : List Nat) (h : ∀ x ∈ l, x < 256) :
    unSextets (sextets l) = some l := by
  induction l using sextets.induct with
  | case1 => simp [sextets, unSextets]
  | case2 a =>
    have ha : a < 256 := h a (by simp)
    simp [sextets, unSextets]
    omega
  | case3 a b =>
    have ha : a < 256 := h a (by simp)
    have hb : b < 256 := h b (by simp)
    simp [sextets, unSextets]
    refine ⟨by omega, by omega⟩
  | case4 a b c rest ih =>
    have ha : a < 256 := h a (by simp)
    have hb : b < 256 := h b (by simp)
    have hc : c < 256 := h c (by simp)
    have hrest : ∀ x ∈ rest, x < 256 := fun x hx => h x (by simp [hx])
    simp [sextets, unSextets, ih hrest]
    refine ⟨by omega, by omega, by omega⟩

/-- Helper: looking a standard-alphabet character back up recovers its
index. -/
theorem stdAlpha_findIdx : ∀ i < 64,
    b64StdAlphabet.findIdx? (fun a => a == b64StdAlphabet.getD i '?') = some i := by
  decide

/-- Helper: looking a url-alphabet character back up recovers its index. -/
theorem urlAlpha_findIdx : ∀ i < 64,
    b64UrlAlphabet.findIdx? (fun a => a == b64UrlAlphabet.getD i '?') = some i := by
  decide

/-- Helper: characters of the standard alphabet are not '=', not '"', and
ASCII. -/
theorem stdAlpha_char_props : ∀ c ∈ b64StdAlphabet,
    (c != '=') = true ∧ (c != '"') = true ∧ c.toNat < 256 := by decide

/-- Helper: characters of the url alphabet are not '=', not '"', and
ASCII. -/
theorem urlAlpha_char_props : ∀ c ∈ b64UrlAlphabet,
    (c != '=') = true ∧ (c != '"') = true ∧ c.toNat < 256 := by decide

/-- Helper: a `getD` result is a member of the list or the default. -/
theorem getD_mem_or_default {α : Type} (l : List α) (i : Nat) (d : α) :
    l.getD i d ∈ l ∨ l.getD i d = d := by
  rcases Nat.lt_or_ge i l.length with h | h
  · left
    rw [List.getD_eq_getElem l d h]
    exact List.getElem_mem h
  · right
    exact List.getD_eq_default l d h

/-- Helper: every character a base64 encoder emits over a well-behaved
alphabet is not '=', not '"', and ASCII. -/
theorem b64EncodeWith_char_props (alpha : List Char)
    (halpha : ∀ c ∈ alpha, (c != '=') = true ∧ (c != '"') = true ∧ c.toNat < 256)
    (bs : List Nat) :
    ∀ c ∈ b64EncodeWith alpha bs,
      (c != '=') = true ∧ (c != '"') = true ∧ c.toNat < 256 := by
  intro c hc
  simp only [b64EncodeWith, List.mem_map] at hc
  obtain ⟨i, hi, rfl⟩ := hc
  rcases getD_mem_or_default alpha i '?' with h | h
  · exact halpha _ h
  · rw [h]
    refine ⟨by decide, by decide, by decide⟩

/-- Helper: looking the encoder's output characters back up recovers the
6-bit groups. -/
theorem charsToSextets_encode (alpha : List Char) (sx : List Nat)
    (h : ∀ x ∈ sx, alpha.findIdx? (fun a => a == alpha.getD x '?') = some x) :
    charsToSextets alpha (sx.map (fun i => alpha.getD i '?')) = some sx := by
  induction sx with
  | nil => rfl
  | cons x xs ih =>
    have hx := h x (by simp)
    have hxs := ih (fun y hy => h y (by simp [hy]))
    simp only [List.map_cons, charsToSextets, hx, hxs]

/-- Helper: padding characters are all '='. -/
theorem b64Padding_all_eq (n : Nat) : ∀ c ∈ b64Padding n, (c != '=') = false := by
  intro c hc
  unfold b64Padding at hc
  split at hc
  · simp at hc
    simp [hc]
  · split at hc
    · simp at hc
      simp [hc]
    · simp at hc

/-- Helper: StdEncoding decode inverts StdEncoding encode on bytes. -/
theorem b64StdDecode_encode (bs : List Nat) (h : ∀ b ∈ bs, b < 256) :
    b64StdDecode (b64StdEncode bs) = some bs := by
  unfold b64StdDecode b64DecodeWith b64StdEncode
  have hdata : (String.mk (b64EncodeWith b64StdAlphabet bs ++ b64Padding bs.length)).data
      = b64EncodeWith b64StdAlphabet bs ++ b64Padding bs.length := rfl
  rw [hdata, List.filter_append]
  have h1 : (b64EncodeWith b64StdAlphabet bs).filter (fun c => c != '=')
      = b64EncodeWith b64StdAlphabet bs :=
    List.filter_eq_self.mpr
      (fun c hc => (b64EncodeWith_char_props _ stdAlpha_char_props bs c hc).1)
  have h2 : (b64Padding bs.length).filter (fun c => c != '=') = [] := by
    rw [List.filter_eq_nil_iff]
    intro c hc
    simp [b64Padding_all_eq bs.length c hc]
  rw [h1, h2, List.append_nil]
  unfold b64EncodeWith
  rw [charsToSextets_encode _ _
    (fun x hx => stdAlpha_findIdx x (sextets_lt_64 bs h x hx))]
  exact sextets_roundtrip bs h

/-- Helper: RawURLEncoding decode inverts RawURLEncoding encode on bytes. -/
theorem b64UrlDecode_encode (bs : List Nat) (h : ∀ b ∈ bs, b < 256) :
    b64UrlDecode (b64UrlEncode bs) = some bs := by
  unfold b64UrlDecode b64DecodeWith b64UrlEncode
  have hdata : (String.mk (b64EncodeWith b64UrlAlphabet bs)).data
      = b64EncodeWith b64UrlAlphabet bs := rfl
  rw [hdata]
  have h1 : (b64EncodeWith b64UrlAlphabet bs).filter (fun c => c != '=')
      = b64EncodeWith b64UrlAlphabet bs :=
    List.filter_eq_self.mpr
      (fun c hc => (b64EncodeWith_char_props _ urlAlpha_char_props bs c hc).1)
  rw [h1]
  unfold b64EncodeWith
  rw [charsToSextets_encode _ _
    (fun x hx => urlAlpha_findIdx x (sextets_lt_64 bs h x hx))]
  exact sextets_roundtrip bs h

/-- Helper: the name this run gives its own tokens always contains the run
identifier as a substring. -/
theorem goContains_patTokenName_runId (runId s t : String) :
    goContains (patTokenName runId s t) runId = true := by
  simp only [goContains, patTokenName, decide_eq_true_eq]
  exact ⟨"token8r-".data, ("-" ++ s ++ "-" ++ t).data,
    by simp [String.data_append, List.append_assoc]⟩

/-- Helper: mapping a string through byte codes and back is the identity. -/
theorem map_ofNat_toNat (l : List Char) : (l.map Char.toNat).map Char.ofNat = l := by
  rw [List.map_map]
  have hcomp : (Char.ofNat ∘ Char.toNat) = id := funext Char.ofNat_toNat
  rw [hcomp, List.map_id]

/-- Helper: parsing a length-prefixed string consumes exactly its
encoding. -/
theorem decStrLP_append (s : String) (rest : List Nat) :
    decStrLP (encStrLP s ++ rest) = some (s, rest) := by
  simp only [encStrLP, List.cons_append, decStrLP]
  rw [if_pos (by simp)]
  have htake : (s.data.map Char.toNat ++ rest).take s.data.length
      = s.data.map Char.toNat := by
    conv_lhs => rw [show s.data.length = (s.data.map Char.toNat).length from
      (List.length_map _ _).symm]
    exact List.take_left _ _
  have hdrop : (s.data.map Char.toNat ++ rest).drop s.data.length = rest := by
    conv_lhs => rw [show s.data.length = (s.data.map Char.toNat).length from
      (List.length_map _ _).symm]
    exact List.drop_left _ _
  rw [htake, hdrop, map_ofNat_toNat]

/-- Helper: parsing a length-prefixed byte sequence consumes exactly its
encoding. -/
theorem decBytesLP_append (b : List Nat) (rest : List Nat) :
    decBytesLP (encBytesLP b ++ rest) = some (b, rest) := by
  simp only [encBytesLP, List.cons_append, decBytesLP]
  rw [if_pos (by simp)]
  rw [List.take_left, List.drop_left]

/-- Helper: parsing one caveat consumes exactly its serialization. -/
theorem decCaveat_append (c : Caveat) (rest : List Nat) :
    decCaveat (c.marshal ++ rest) = some (c, rest) := by
  simp only [Caveat.marshal, List.append_assoc, decCaveat, decStrLP_append]

/-- Helper: parsing a counted caveat list consumes exactly its
serialization. -/
theorem decCaveats_append (cs : List Caveat) (rest : List Nat) :
    decCaveats cs.length ((cs.map Caveat.marshal).flatten ++ rest)
      = some (cs, rest) := by
  induction cs generalizing rest with
  | nil => rfl
  | cons c cs ih =>
    simp only [List.map_cons, List.flatten_cons, List.length_cons,
      List.append_assoc, decCaveats, decCaveat_append, ih]

/-- Helper: the serialization model is invertible: `unmarshalBinary` parses
`marshalBinary` back to the same macaroon. -/
theorem unmarshal_marshal (m : Macaroon) :
    Macaroon.unmarshalBinary m.marshalBinary = some m := by
  simp only [Macaroon.marshalBinary, List.append_assoc, List.cons_append,
    Macaroon.unmarshalBinary, decStrLP_append, decCaveats_append]
  have h4 : decBytesLP (encBytesLP m.sig) = some (m.sig, []) := by
    have := decBytesLP_append m.sig []
    rwa [List.append_nil] at this
  rw [h4]
  rfl

/-- Helper: scanning a quote-free prefix stops exactly at the closing
quote. -/
theorem takeWhile_quote (l rest : List Char) (h : ∀ c ∈ l, (c != '"') = true) :
    (l ++ '"' :: rest).takeWhile (fun c => c != '"') = l
    ∧ (l ++ '"' :: rest).dropWhile (fun c => c != '"') = '"' :: rest := by
  induction l with
  | nil => exact ⟨rfl, rfl⟩
  | cons c cs ih =>
    have hc := h c (by simp)
    have ihh := ih (fun d hd => h d (by simp [hd]))
    refine ⟨?_, ?_⟩
    · simp [List.cons_append, List.takeWhile_cons, hc, ihh.1]
    · simp [List.cons_append, List.dropWhile_cons, hc, ihh.2]

/-- Helper: a quote-free string literal parses back to itself. -/
theorem parseStrLit_append (s : String) (rest : List Char)
    (h : ∀ c ∈ s.data, (c != '"') = true) :
    parseStrLit ('"' :: (s.data ++ '"' :: rest)) = some (s, rest) := by
  have ht := takeWhile_quote s.data rest h
  simp only [parseStrLit, ht.1, ht.2]

/-- Helper: a string value parses under any positive fuel. -/
theorem parseJsonVal_str (fuel : Nat) (s : String) (rest : List Char)
    (h : ∀ c ∈ s.data, (c != '"') = true) :
    parseJsonVal (fuel + 1) ('"' :: (s.data ++ '"' :: rest))
      = some (.str s, rest) := by
  simp only [parseJsonVal, parseStrLit_append s rest h]

/-- Helper: an object whose body starts with a key parses via its field
list. -/
theorem parseJsonVal_obj (fuel : Nat) (rest fin : List Char)
    (fs : List (String × Json))
    (h : parseFields fuel ('"' :: rest) = some (fs, fin)) :
    parseJsonVal (fuel + 1) ('\x7b' :: '"' :: rest) = some (.obj fs, fin) := by
  simp only [parseJsonVal, h]
  split <;> simp_all

/-- Helper: a field followed by a comma extends the parsed field list. -/
theorem parseFields_step_more (fuel : Nat) (key : String)
    (valRest more fin : List Char) (v : Json) (fs : List (String × Json))
    (hkey : ∀ c ∈ key.data, (c != '"') = true)
    (hval : parseJsonVal fuel valRest = some (v, ',' :: more))
    (hrest : parseFields fuel more = some (fs, fin)) :
    parseFields (fuel + 1) ('"' :: (key.data ++ '"' :: ':' :: valRest))
      = some ((key, v) :: fs, fin) := by
  simp only [parseFields, parseStrLit_append key (':' :: valRest) hkey, hval, hrest]

/-- Helper: a final field followed by a closing brace ends the field
list. -/
theorem parseFields_step_last (fuel : Nat) (key : String)
    (valRest fin : List Char) (v : Json)
    (hkey : ∀ c ∈ key.data, (c != '"') = true)
    (hval : parseJsonVal fuel valRest = some (v, '\x7d' :: fin)) :
    parseFields (fuel + 1) ('"' :: (key.data ++ '"' :: ':' :: valRest))
      = some ([(key, v)], fin) := by
  simp only [parseFields, parseStrLit_append key (':' :: valRest) hkey, hval]

/-- Helper: the credential envelope template parses to the two-level
two-field object, for any quote-free payloads and any sufficient fuel. -/
theorem parse_token_template (m : Nat) (A B : List Char)
    (hA : ∀ c ∈ A, (c != '"') = true) (hB : ∀ c ∈ B, (c != '"') = true) :
    parseJsonVal (m + 7) (tmplChars A B) =
      some (.obj [("t", .str "u1-macaroon"),
                  ("v", .obj [("r", .str (String.mk A)),
                              ("d", .str (String.mk B))])], []) := by
  have h4 : parseJsonVal (m + 1) ('"' :: (B ++ '"' :: '\x7d' :: '\x7d' :: []))
      = some (.str (String.mk B), '\x7d' :: '\x7d' :: []) :=
    parseJsonVal_str m (String.mk B) ('\x7d' :: '\x7d' :: []) hB
  have h3 : parseFields (m + 2)
      ('"' :: ("d".data ++ '"' :: ':' :: ('"' :: (B ++ '"' :: '\x7d' :: '\x7d' :: []))))
      = some ([("d", .str (String.mk B))], '\x7d' :: []) :=
    parseFields_step_last (m + 1) "d" _ _ _ (by decide) h4
  have h2 : parseJsonVal (m + 2) ('"' :: (A ++ '"' :: ',' :: '"' :: 'd' :: '"'
      :: ':' :: ('"' :: (B ++ '"' :: '\x7d' :: '\x7d' :: []))))
      = some (.str (String.mk A), ',' :: '"' :: 'd' :: '"' :: ':'
          :: ('"' :: (B ++ '"' :: '\x7d' :: '\x7d' :: []))) :=
    parseJsonVal_str (m + 1) (String.mk A) _ hA
  have h1 : parseFields (m + 3)
      ('"' :: ("r".data ++ '"' :: ':' :: ('"' :: (A ++ '"' :: ',' :: '"' :: 'd'
        :: '"' :: ':' :: ('"' :: (B ++ '"' :: '\x7d' :: '\x7d' :: []))))))
      = some ([("r", .str (String.mk A)), ("d", .str (String.mk B))], '\x7d' :: []) :=
    parseFields_step_more (m + 2) "r" _ _ _ _ _ (by decide) h2 h3
  have h0 : parseJsonVal (m + 4) ('\x7b' :: '"' :: ("r".data ++ '"' :: ':'
      :: ('"' :: (A ++ '"' :: ',' :: '"' :: 'd' :: '"' :: ':'
        :: ('"' :: (B ++ '"' :: '\x7d' :: '\x7d' :: []))))))
      = some (.obj [("r", .str (String.mk A)), ("d", .str (String.mk B))],
          '\x7d' :: []) :=
    parseJsonVal_obj (m + 3) _ _ _ h1
  have hv : parseFields (m + 5)
      ('"' :: ("v".data ++ '"' :: ':' :: ('\x7b' :: '"' :: ("r".data ++ '"' :: ':'
        :: ('"' :: (A ++ '"' :: ',' :: '"' :: 'd' :: '"' :: ':'
          :: ('"' :: (B ++ '"' :: '\x7d' :: '\x7d' :: []))))))))
      = some ([("v", .obj [("r", .str (String.mk A)), ("d", .str (String.mk B))])],
          []) :=
    parseFields_step_last (m + 4) "v" _ _ _ (by decide) h0
  have hu : parseJsonVal (m + 5) ('"' :: ("u1-macaroon".data ++ '"' :: ','
      :: '"' :: ("v".data ++ '"' :: ':' :: ('\x7b' :: '"' :: ("r".data ++ '"' :: ':'
        :: ('"' :: (A ++ '"' :: ',' :: '"' :: 'd' :: '"' :: ':'
          :: ('"' :: (B ++ '"' :: '\x7d' :: '\x7d' :: [])))))))))
      = some (.str "u1-macaroon", ',' :: '"' :: ("v".data ++ '"' :: ':'
        :: ('\x7b' :: '"' :: ("r".data ++ '"' :: ':'
          :: ('"' :: (A ++ '"' :: ',' :: '"' :: 'd' :: '"' :: ':'
            :: ('"' :: (B ++ '"' :: '\x7d' :: '\x7d' :: [])))))))) :=
    parseJsonVal_str (m + 4) "u1-macaroon" _ (by decide)
  have ht : parseFields (m + 6)
      ('"' :: ("t".data ++ '"' :: ':' :: ('"' :: ("u1-macaroon".data ++ '"' :: ','
        :: '"' :: ("v".data ++ '"' :: ':' :: ('\x7b' :: '"' :: ("r".data ++ '"' :: ':'
          :: ('"' :: (A ++ '"' :: ',' :: '"' :: 'd' :: '"' :: ':'
            :: ('"' :: (B ++ '"' :: '\x7d' :: '\x7d' :: [])))))))))))
      = some ([("t", .str "u1-macaroon"),
               ("v", .obj [("r", .str (String.mk A)), ("d", .str (String.mk B))])],
          []) :=
    parseFields_step_more (m + 5) "t" _ _ _ _ _ (by decide) hu hv
  exact parseJsonVal_obj (m + 6) _ _ _ ht

/-- Helper: the marshalled envelope string's characters are the template's
characters. -/
theorem tmpl_data (a b : String) :
    (ubuntuOneTokenJSON a b).data = tmplChars a.data b.data := by
  have h1 : ("\x7b\"t\":\"u1-macaroon\",\"v\":\x7b\"r\":\"" : String).data
      = ['\x7b', '"', 't', '"', ':', '"', 'u', '1', '-', 'm', 'a', 'c', 'a', 'r',
         'o', 'o', 'n', '"', ',', '"', 'v', '"', ':', '\x7b', '"', 'r', '"', ':',
         '"'] := by decide
  have h2 : ("\",\"d\":\"" : String).data
      = ['"', ',', '"', 'd', '"', ':', '"'] := by decide
  have h3 : ("\"\x7d\x7d" : String).data = ['"', '\x7d', '\x7d'] := by decide
  simp [ubuntuOneTokenJSON, String.data_append, h1, h2, h3, tmplChars]

/-- Helper: the template's length in characters. -/
theorem tmplChars_length (A B : List Char) :
    (tmplChars A B).length = 39 + A.length + B.length := by
  simp [tmplChars]
  omega

/-- Helper: JSON-decoding the marshalled envelope yields its two-level,
two-field object form. -/
theorem jsonDecode_token (a b : String)
    (hA : ∀ c ∈ a.data, (c != '"') = true) (hB : ∀ c ∈ b.data, (c != '"') = true) :
    jsonDecode (ubuntuOneTokenJSON a b)
      = some (.obj [("t", .str "u1-macaroon"),
                    ("v", .obj [("r", .str a), ("d", .str b)])]) := by
  unfold jsonDecode
  have hdata : (ubuntuOneTokenJSON a b).data = tmplChars a.data b.data := tmpl_data a b
  have hlen : (ubuntuOneTokenJSON a b).length = 39 + a.data.length + b.data.length := by
    show (ubuntuOneTokenJSON a b).data.length = _
    rw [hdata, tmplChars_length]
  have hfuel : (ubuntuOneTokenJSON a b).length + 1
      = (33 + a.data.length + b.data.length) + 7 := by omega
  rw [hdata, hfuel, parse_token_template _ _ _ hA hB]

/-- Helper: rebuilding a string from its byte codes is the identity. -/
theorem strToBytes_roundtrip (s : String) :
    String.mk ((strToBytes s).map Char.ofNat) = s := by
  unfold strToBytes
  rw [map_ofNat_toNat]

/-- Helper: every character of the envelope built from base64-url payloads
is ASCII. -/
theorem token_json_ascii (root discharge : Macaroon) :
    ∀ x ∈ strToBytes (newUbuntuOneTokenJSON root discharge), x < 256 := by
  intro x hx
  simp only [strToBytes, List.mem_map] at hx
  obtain ⟨c, hc, rfl⟩ := hx
  have hdata : (newUbuntuOneTokenJSON root discharge).data
      = ("\x7b\"t\":\"u1-macaroon\",\"v\":\x7b\"r\":\"" : String).data
        ++ (b64UrlEncode root.marshalBinary).data
        ++ ("\",\"d\":\"" : String).data
        ++ (b64UrlEncode discharge.marshalBinary).data
        ++ ("\"\x7d\x7d" : String).data := by
    simp [newUbuntuOneTokenJSON, ubuntuOneTokenJSON, String.data_append]
  rw [hdata] at hc
  simp only [List.mem_append] at hc
  have hr : ∀ d ∈ (b64UrlEncode root.marshalBinary).data, d.toNat < 256 :=
    fun d hd => (b64EncodeWith_char_props _ urlAlpha_char_props _ d hd).2.2
  have hd : ∀ d ∈ (b64UrlEncode discharge.marshalBinary).data, d.toNat < 256 :=
    fun d hd => (b64EncodeWith_char_props _ urlAlpha_char_props _ d hd).2.2
  have hlit1 : ∀ d ∈ ("\x7b\"t\":\"u1-macaroon\",\"v\":\x7b\"r\":\"" : String).data,
      d.toNat < 256 := by decide
  have hlit2 : ∀ d ∈ ("\",\"d\":\"" : String).data, d.toNat < 256 := by decide
  have hlit3 : ∀ d ∈ ("\"\x7d\x7d" : String).data, d.toNat < 256 := by decide
  rcases hc with ((((hc | hc) | hc) | hc) | hc)
  · exact hlit1 c hc
  · exact hr c hc
  · exact hlit2 c hc
  · exact hd c hc
  · exact hlit3 c hc

/-- Helper: the composite credential decodes (base64, then JSON) to the
two-field envelope object. -/
theorem decodeCredential_login (root discharge : Macaroon) :
    decodeCredential (loginCredential root discharge) =
      some (.obj [("t", .str "u1-macaroon"),
                  ("v", .obj [("r", .str (b64UrlEncode root.marshalBinary)),
                              ("d", .str (b64UrlEncode discharge.marshalBinary))])]) := by
  unfold decodeCredential loginCredential
  rw [b64StdDecode_encode _ (token_json_ascii root discharge)]
  show jsonDecode (String.mk
      ((strToBytes (newUbuntuOneTokenJSON root discharge)).map Char.ofNat)) = _
  rw [strToBytes_roundtrip]
  exact jsonDecode_token _ _
    (fun c hc => (b64EncodeWith_char_props _ urlAlpha_char_props _ c hc).2.1)
    (fun c hc => (b64EncodeWith_char_props _ urlAlpha_char_props _ c hc).2.1)

/-- Helper: each envelope payload decodes back to its macaroon. -/
theorem decodeMacaroonField_encode (mac : Macaroon)
    (h : ∀ b ∈ mac.marshalBinary, b < 256) :
    decodeMacaroonField (b64UrlEncode mac.marshalBinary) = some mac := by
  unfold decodeMacaroonField
  rw [b64UrlDecode_encode _ h]
  exact unmarshal_marshal mac

/-- Helper: every credential `login` returns successfully is the encoding of
some root/discharge macaroon pair. -/
theorem login_ok_shape (oracle : StoreOracle) (creds : LoginCredentials)
    (body : Json) (tok : String) (h : (login oracle creds body).2 = .ok tok) :
    ∃ root discharge, tok = loginCredential root discharge := by
  unfold login at h
  rcases hG : getRootMacaroon oracle [] body with ⟨log1, rootRes⟩
  rw [hG] at h
  dsimp only at h
  cases rootRes with
  | error e => simp at h
  | ok root =>
    dsimp only at h
    rcases hD : getDischargedMacaroon oracle log1 root creds with ⟨log2, dres⟩
    rw [hD] at h
    dsimp only at h
    cases dres with
    | error e => simp at h
    | ok discharge =>
      simp at h
      exact ⟨root, discharge, h.symm⟩

/-- C8: for every repository value with an empty track list, `SetDefaults`
sets its tracks to exactly the single default triple
(latest, candidate, "Candidate Branch"), and `SetDefaults` is idempotent. -/
theorem setDefaults_default_and_idempotent (r : Repo) :
    (r.tracks = [] → (r.setDefaults).tracks = [defaultTrack])
    ∧ r.setDefaults.setDefaults = r.setDefaults :=
  ⟨fun _ => rfl, rfl⟩

/-- Witness for C8 at a concrete trackless repository. -/
theorem setDefaults_default_and_idempotent_witness :
    (Repo.mk "sample-app" []).setDefaults.tracks = [defaultTrack]
    ∧ (Repo.mk "sample-app" []).setDefaults.setDefaults
        = (Repo.mk "sample-app" []).setDefaults :=
  ⟨(setDefaults_default_and_idempotent ⟨"sample-app", []⟩).1 rfl,
   (setDefaults_default_and_idempotent ⟨"sample-app", []⟩).2⟩

/-- C10: `PATClient.Create`'s repository-id resolution succeeds on
"owner/repo" inputs but panics (index out of range on the split result)
when an element contains no '/' separator, instead of returning an error. -/
theorem create_panics_on_missing_slash :
    createRepoIDPairs ["snapcrafters/ci-screenshots"]
        = .ok [("snapcrafters", "ci-screenshots")]
    ∧ createRepoIDPairs ["snapcrafters/ci-screenshots", "noslash"]
        = .error .indexOutOfRange := by
  constructor <;> rfl

/-- C2 counterexample: a token created by a prior run for the pair
(xapp, track1) is deleted by the cleanup step for the *different* pair
(app, track1), because "app-track1" is a substring of "xapp-track1". -/
theorem cleanup_cross_repo_counterexample :
    stalePAT.name = patTokenName "aaaa" "xapp" "track1"
    ∧ "xapp" ≠ "app"
    ∧ cleanupDeleted [stalePAT] "app" "track1" "bbbb" = [stalePAT] := by
  refine ⟨rfl, by decide, by decide⟩

/-- C2 (amended): the cleanup step deletes exactly those previously listed
tokens whose name contains `<repo>-<track>` and does not contain the current
run identifier; in particular no token named with the current run identifier
(such as the tokens this run creates) is ever deleted. Tokens of a
different (repository, track) pair may be deleted when their name happens to
contain `<repo>-<track>` as a substring. -/
theorem cleanup_deletes_exactly_suffix_matches
    (pats : List PAT) (snap trackName runId : String) :
    (∀ p, p ∈ cleanupDeleted pats snap trackName runId ↔
      p ∈ pats ∧ goContains p.name (snap ++ "-" ++ trackName) = true
        ∧ goContains p.name runId = false)
    ∧ (∀ p ∈ cleanupDeleted pats snap trackName runId, ∀ s t,
        p.name ≠ patTokenName runId s t) := by
  constructor
  · intro p
    simp [cleanupDeleted, List.mem_filter, Bool.and_eq_true, Bool.not_eq_true',
      and_assoc]
  · intro p hp s t hname
    have hmem : goContains p.name runId = false := by
      have := List.of_mem_filter hp
      simp [Bool.and_eq_true, Bool.not_eq_true'] at this
      exact this.2
    rw [hname, goContains_patTokenName_runId] at hmem
    exact Bool.noConfusion hmem

/-- Witness for C2 (amended): the stale cross-pair token is deleted, and its
name is never that of a token of the current run "bbbb". -/
theorem cleanup_deletes_exactly_suffix_matches_witness :
    stalePAT ∈ cleanupDeleted [stalePAT] "app" "track1" "bbbb"
    ∧ (∀ s t, stalePAT.name ≠ patTokenName "bbbb" s t) := by
  have h := cleanup_deletes_exactly_suffix_matches [stalePAT] "app" "track1" "bbbb"
  have hmem : stalePAT ∈ cleanupDeleted [stalePAT] "app" "track1" "bbbb" :=
    (h.1 stalePAT).mpr ⟨by decide, by decide, by decide⟩
  exact ⟨hmem, h.2 stalePAT hmem⟩

/-- C3 counterexample: with two distinct pending requests both matching
(org,repo) = (snapcrafters, foo), `ApprovePATRequest` does not fail: it
approves the first one (id 1). The multiple-match case is not fatal. -/
theorem approve_multiple_match_counterexample :
    patReqMatches "snapcrafters" "foo" pendingReqA = true
    ∧ patReqMatches "snapcrafters" "foo" pendingReqB = true
    ∧ pendingReqA ≠ pendingReqB
    ∧ approvePATRequest "snapcrafters" "foo" [pendingReqA, pendingReqB]
        = .ok pendingReqA.id := by
  refine ⟨by decide, by decide, by decide, rfl⟩

/-- C3 (amended): a pending request is selected only when its repository
list has exactly two entries, one `org/repo` and one `org/ci-screenshots`;
zero matching requests is a fatal error for the call; when one or more
requests match, the first matching request (in listing order) is approved
rather than the call failing. -/
theorem approve_selects_first_match (org repo : String) (reqs : List PATRequest) :
    (∀ r, patReqMatches org repo r = true ↔
      (r.repos.length = 2 ∧ (org ++ "/" ++ repo) ∈ r.repos
        ∧ (org ++ "/ci-screenshots") ∈ r.repos))
    ∧ ((∀ r ∈ reqs, patReqMatches org repo r = false) →
        approvePATRequest org repo reqs =
          .error ("could not find PAT request for " ++ org ++ "/" ++ repo))
    ∧ (∀ r, reqs.find? (patReqMatches org repo) = some r →
        approvePATRequest org repo reqs = .ok r.id) := by
  refine ⟨fun r => ?_, fun h => ?_, fun r h => ?_⟩
  · simp [patReqMatches, List.any_eq_true, Bool.and_eq_true, beq_iff_eq,
      and_assoc]
  · have hnone : reqs.find? (patReqMatches org repo) = none := by
      rw [List.find?_eq_none]
      intro x hx
      simp [h x hx]
    simp [approvePATRequest, findPATRequest, hnone]
  · simp [approvePATRequest, findPATRequest, h]

/-- Witness for C3 (amended): zero matches is an error on the empty listing,
and with a single matching request that request is approved. -/
theorem approve_selects_first_match_witness :
    approvePATRequest "snapcrafters" "foo" []
      = .error ("could not find PAT request for " ++ "snapcrafters" ++ "/" ++ "foo")
    ∧ approvePATRequest "snapcrafters" "foo" [pendingReqA] = .ok pendingReqA.id :=
  ⟨(approve_selects_first_match "snapcrafters" "foo" []).2.1 (by simp),
   (approve_selects_first_match "snapcrafters" "foo" [pendingReqA]).2.2
     pendingReqA (by decide)⟩

/-- C1 (the code evaluated at the claim's condition): when no caveat of the
root macaroon is located at the authentication authority's host,
`getDischargedMacaroon` evaluates `root.Caveats()[-1]` — a runtime panic
(index out of range), not a wrapped error value — and issues no discharge
request. -/
theorem discharge_no_matching_caveat_is_crash (oracle : StoreOracle)
    (log : List StoreCall) (root : Macaroon) (creds : LoginCredentials)
    (h : ∀ c ∈ root.caveats, (c.location == urlHost storeAuthURL) = false) :
    getDischargedMacaroon oracle log root creds = (log, .error .indexOutOfRange) := by
  have hidx : slicesIndexFunc root.caveats
      (fun c => c.location == urlHost storeAuthURL) = -1 := by
    have : root.caveats.findIdx? (fun c => c.location == urlHost storeAuthURL) = none := by
      rw [List.findIdx?_eq_none_iff]
      intro c hc
      simpa using h c hc
    simp [slicesIndexFunc, this]
  simp [getDischargedMacaroon, hidx, goIndex]

/-- Witness for C1 at a concrete root macaroon with one caveat located
elsewhere. -/
theorem discharge_no_matching_caveat_is_crash_witness :
    getDischargedMacaroon nullStoreOracle [] rootNoMatch ⟨"user", "pw"⟩
      = ([], .error .indexOutOfRange) :=
  discharge_no_matching_caveat_is_crash nullStoreOracle [] rootNoMatch
    ⟨"user", "pw"⟩ (by decide)

/-- Helper: whatever the oracle answers, the first HTTP request `login`
issues is the POST of the token request body to the store's acl endpoint. -/
theorem login_first_call (oracle : StoreOracle) (creds : LoginCredentials)
    (body : Json) :
    (login oracle creds body).1.head? =
      some ⟨snapStoreBaseURL ++ storeTokensPath, body⟩ := by
  unfold login getRootMacaroon
  cases horacle : oracle ⟨snapStoreBaseURL ++ storeTokensPath, body⟩ with
  | error e => simp [horacle]
  | ok resp =>
    cases hd : deserializeMacaroon resp "macaroon" with
    | error e => simp [horacle, hd]
    | ok root =>
      unfold getDischargedMacaroon
      cases hidx : goIndex root.caveats
          (slicesIndexFunc root.caveats
            (fun c => c.location == urlHost storeAuthURL)) with
      | error e => simp [horacle, hd, hidx]
      | ok cav =>
        cases horacle2 : oracle ⟨storeAuthURL ++ storeTokensExchangePath,
            .obj [("email", .str creds.login), ("password", .str creds.password),
                  ("caveat_id", .str cav.id)]⟩ with
        | error e => simp [horacle, hd, hidx, horacle2]
        | ok resp2 =>
          cases hd2 : deserializeMacaroon resp2 "discharge_macaroon" <;>
            simp [horacle, hd, hidx, horacle2, hd2]

/-- C7: every channel outside {candidate, stable} is rejected with no HTTP
request issued; the permission table grants access+push+update+release to
"candidate" and access+release to "stable"; and for a valid channel the
first HTTP request `GenerateStoreToken` issues carries exactly that
permission set in its token-request body. -/
theorem generate_token_channel_validation :
    (∀ channel, channel ≠ "candidate" → channel ≠ "stable" →
      channelPermissions channel = none)
    ∧ (∀ oracle creds snap track channel, channelPermissions channel = none →
        generateStoreToken oracle creds snap track channel
          = ([], .error (.value "invalid channel specified")))
    ∧ channelPermissions "candidate"
        = some ["package_access", "package_push", "package_update", "package_release"]
    ∧ channelPermissions "stable" = some ["package_access", "package_release"]
    ∧ (∀ oracle creds snap track channel permissions,
        channelPermissions channel = some permissions →
        (generateStoreToken oracle creds snap track channel).1.head? =
          some ⟨snapStoreBaseURL ++ storeTokensPath,
            tokenRequestJson permissions ("tokenator-" ++ snap ++ "-" ++ track)
              31536000 [snap] [track ++ "/" ++ channel]⟩) := by
  refine ⟨fun channel h1 h2 => ?_, fun oracle creds snap track channel h => ?_,
    rfl, rfl, fun oracle creds snap track channel permissions h => ?_⟩
  · simp [channelPermissions, h1, h2]
  · simp [generateStoreToken, h]
  · simp only [generateStoreToken, h]
    exact login_first_call oracle creds _

/-- Witness for C7: the invalid channel "edge" fails with no traffic, and a
"candidate" run's first request carries the four-permission set. -/
theorem generate_token_channel_validation_witness :
    channelPermissions "edge" = none
    ∧ generateStoreToken nullStoreOracle ⟨"user", "pw"⟩ "sample-app" "latest" "edge"
        = ([], .error (.value "invalid channel specified"))
    ∧ (generateStoreToken nullStoreOracle ⟨"user", "pw"⟩ "sample-app" "latest"
        "candidate").1.head? =
      some ⟨snapStoreBaseURL ++ storeTokensPath,
        tokenRequestJson
          ["package_access", "package_push", "package_update", "package_release"]
          ("tokenator-" ++ "sample-app" ++ "-" ++ "latest") 31536000 ["sample-app"]
          ["latest" ++ "/" ++ "candidate"]⟩ :=
  ⟨generate_token_channel_validation.1 "edge" (by decide) (by decide),
   generate_token_channel_validation.2.1 nullStoreOracle ⟨"user", "pw"⟩
     "sample-app" "latest" "edge" rfl,
   generate_token_channel_validation.2.2.2.2 nullStoreOracle ⟨"user", "pw"⟩
     "sample-app" "latest" "candidate" _ rfl⟩

/-- C9: when the environment fetch yields a not-found status, `SetEnvSecret`
makes exactly one environment-creation call — with admin bypass allowed,
self-review prevented, custom branch policies on and no protected-branch
requirement — followed by a deployment-branch policy naming exactly the
track's branch, all before the secret upload call. -/
theorem env_created_once_before_upload (o : GhOracle) (org repo : String)
    (track : Track) (secretName : String) (rid : Int) (keyId key : String)
    (hrid : o.repoId = .ok rid) (h404 : o.envStatus = 404)
    (hc : o.createEnvErr = none) (hb : o.branchPolicyErr = none)
    (hkey : o.publicKey = .ok (keyId, key))
    (hdec : (b64StdDecode key).isSome = true) :
    (setEnvSecret o org repo track secretName).1 =
      [.getRepo org repo,
       .getEnvironment org repo track.environment,
       .createUpdateEnvironment org repo track.environment true true false true,
       .createDeploymentBranchPolicy org repo track.environment track.branch,
       .getEnvPublicKey rid track.environment,
       .createOrUpdateEnvSecret rid track.environment secretName]
    ∧ (setEnvSecret o org repo track secretName).1.countP isCreateEnvCall = 1 := by
  obtain ⟨bs, hbs⟩ := Option.isSome_iff_exists.mp hdec
  have htrace : (setEnvSecret o org repo track secretName).1 =
      [.getRepo org repo,
       .getEnvironment org repo track.environment,
       .createUpdateEnvironment org repo track.environment true true false true,
       .createDeploymentBranchPolicy org repo track.environment track.branch,
       .getEnvPublicKey rid track.environment,
       .createOrUpdateEnvSecret rid track.environment secretName] := by
    simp [setEnvSecret, ensureEnvironment, createEnvironment, encryptSecret,
      hrid, h404, hc, hb, hkey, hbs]
  refine ⟨htrace, ?_⟩
  rw [htrace]
  simp [List.countP_cons, isCreateEnvCall]

/-- Witness for C9 at a concrete oracle answering 404. -/
theorem env_created_once_before_upload_witness :
    (setEnvSecret notFoundOracle "snapcrafters" "sample-app" defaultTrack
        "LP_BUILD_SECRET").1 =
      [.getRepo "snapcrafters" "sample-app",
       .getEnvironment "snapcrafters" "sample-app" defaultTrack.environment,
       .createUpdateEnvironment "snapcrafters" "sample-app"
         defaultTrack.environment true true false true,
       .createDeploymentBranchPolicy "snapcrafters" "sample-app"
         defaultTrack.environment defaultTrack.branch,
       .getEnvPublicKey 7 defaultTrack.environment,
       .createOrUpdateEnvSecret 7 defaultTrack.environment "LP_BUILD_SECRET"]
    ∧ (setEnvSecret notFoundOracle "snapcrafters" "sample-app" defaultTrack
        "LP_BUILD_SECRET").1.countP isCreateEnvCall = 1 :=
  env_created_once_before_upload notFoundOracle "snapcrafters" "sample-app"
    defaultTrack "LP_BUILD_SECRET" 7 "key-id" "AAAA" rfl rfl rfl rfl rfl
    (by decide)

/-- C6: processing a configured repository with no explicit tracks
synthesizes the default track (latest, candidate, "Candidate Branch") and
then, against environment "Candidate Branch", generates and sets
SNAP_STORE_CANDIDATE with permissions access+push+update+release, then
SNAP_STORE_STABLE with access+release, then LP_BUILD_SECRET with the
configured static value, then creates, approves and installs
SNAPCRAFTERS_BOT_COMMIT — in exactly that order. -/
theorem process_default_track_order (org snap runId : String) :
    processSteps ⟨org, [⟨snap, []⟩]⟩ runId [] [] =
      [.generateStoreToken snap "latest" "candidate"
         ["package_access", "package_push", "package_update", "package_release"],
       .setEnvSecret snap "Candidate Branch" "SNAP_STORE_CANDIDATE"
         (.storeToken snap "latest" "candidate"),
       .generateStoreToken snap "latest" "stable"
         ["package_access", "package_release"],
       .setEnvSecret snap "Candidate Branch" "SNAP_STORE_STABLE"
         (.storeToken snap "latest" "stable"),
       .setEnvSecret snap "Candidate Branch" "LP_BUILD_SECRET" .launchpadStatic,
       .createPAT (patTokenName runId snap "latest")
         [org ++ "/" ++ snap, "snapcrafters/ci-screenshots"] org,
       .approvePAT snap,
       .setEnvSecret snap "Candidate Branch" "SNAPCRAFTERS_BOT_COMMIT"
         .botCommitToken] := rfl

/-- C5 counterexample: the base64-then-JSON decoding of a concrete
successfully produced credential has exactly two top-level fields, but they
are the token-type tag "t" (whose value "u1-macaroon" does not decode as a
binary capability token) and the envelope "v" (which is a nested object,
not a string, so it cannot be the base64 of a binary token at all); the two
macaroons sit one level deeper. -/
theorem credential_top_fields_counterexample :
    decodeCredential (loginCredential rootC dischargeC)
      = some (.obj [("t", .str "u1-macaroon"),
                    ("v", .obj [("r", .str (b64UrlEncode rootC.marshalBinary)),
                                ("d", .str (b64UrlEncode dischargeC.marshalBinary))])])
    ∧ decodeMacaroonField "u1-macaroon" = none
    ∧ Json.isStr (.obj [("r", .str (b64UrlEncode rootC.marshalBinary)),
                        ("d", .str (b64UrlEncode dischargeC.marshalBinary))]) = false :=
  ⟨decodeCredential_login rootC dischargeC, rfl, rfl⟩

/-- C5 (amended): every credential the Store Authentication Client produces
successfully is the encoding of a root/discharge macaroon pair;
base64-decoding it and then JSON-decoding the result yields an object with
exactly two fields — the fixed token-type tag "t" = "u1-macaroon" and the
envelope "v", itself an object with exactly two fields "r" and "d", each of
which decodes as a valid binary capability-token structure (the root and the
discharge macaroon respectively). -/
theorem credential_envelope_structure :
    (∀ oracle creds body tok, (login oracle creds body).2 = .ok tok →
      ∃ root discharge, tok = loginCredential root discharge)
    ∧ (∀ root discharge : Macaroon,
        decodeCredential (loginCredential root discharge) =
          some (.obj [("t", .str "u1-macaroon"),
                      ("v", .obj [("r", .str (b64UrlEncode root.marshalBinary)),
                                  ("d", .str (b64UrlEncode discharge.marshalBinary))])]))
    ∧ (∀ root discharge : Macaroon,
        (∀ b ∈ root.marshalBinary, b < 256) →
        (∀ b ∈ discharge.marshalBinary, b < 256) →
        decodeMacaroonField (b64UrlEncode root.marshalBinary) = some root
        ∧ decodeMacaroonField (b64UrlEncode discharge.marshalBinary) = some discharge) :=
  ⟨login_ok_shape, decodeCredential_login,
   fun r d hr hd =>
     ⟨decodeMacaroonField_encode r hr, decodeMacaroonField_encode d hd⟩⟩

/-- Witness for C5 at a concrete oracle run and concrete macaroons. -/
theorem credential_envelope_structure_witness :
    (∃ root discharge,
      loginCredential rootC dischargeC = loginCredential root discharge)
    ∧ decodeMacaroonField (b64UrlEncode rootC.marshalBinary) = some rootC
    ∧ decodeMacaroonField (b64UrlEncode dischargeC.marshalBinary) = some dischargeC :=
  ⟨credential_envelope_structure.1 goodStoreOracle ⟨"user", "pw"⟩ (Json.obj [])
     (loginCredential rootC dischargeC) rfl,
   (credential_envelope_structure.2.2 rootC dischargeC (by decide) (by decide)).1,
   (credential_envelope_structure.2.2 rootC dischargeC (by decide) (by decide)).2⟩

/-- C4: when config and credentials parse but `Process` fails, the terminal
error is logged, yet the `RunE` closure swallows it (returns nil), so
`Execute` succeeds and the program exits with status 0 — not non-zero as the
specification states. -/
theorem process_error_logged_but_exit_zero :
    mainRun (.ok ()) (.ok ()) (.error "boom") = (["boom"], 0) := rfl

end Tokenator
